import Mathlib

/-!
Verification development for the gss-DB2025 relational engine core.

The definitions below are a shallow embedding of the C++ sources under
`src/src/`: the analyzer (`analyze/analyze.cpp`), the planner
(`optimizer/planner.cpp`, `optimizer/plan.h`), the portal (`portal.h`) and
the volcano executors (`execution/executor_*.h`, `execution/execution_sort.h`,
`execution/executor_explain.cpp`).  Machine integers are modelled as `Int`
with explicit wrapping where relevant, rows are raw byte lists (one `Nat`
in `[0,255]` per byte, exactly the `char` buffer of `RmRecord`), IEEE-754
`float`/`double` cell decoding is written out bit-for-bit, and fallible
C++ code (functions that `throw`) returns `Except String`.
-/

deriving instance DecidableEq for Except

namespace GssDB

/-- Column types, from `ColType` in the system headers (`TYPE_INT`,
`TYPE_FLOAT`, `TYPE_STRING`). -/
inductive ColType where
  | TYPE_INT
  | TYPE_FLOAT
  | TYPE_STRING
deriving DecidableEq, Repr

/-- Comparison operators, from `CompOp` (`OP_EQ` … `OP_GE`). -/
inductive CompOp where
  | OP_EQ
  | OP_NE
  | OP_LT
  | OP_GT
  | OP_LE
  | OP_GE
deriving DecidableEq, Repr

/-- Qualified column reference, from `TabCol` in the common headers. -/
structure TabCol where
  tab_name : String
  col_name : String
deriving DecidableEq, Repr

/-- Runtime value, from `Value` in the common headers (tag plus payload
fields plus the raw-bytes view `raw`).  The header itself is not under
`src/`; the fields and the setters `set_int` / `set_float` are modelled
from their uses in `analyze.cpp`, `executor_insert.h`, `executor_update.h`
and from the spec (§3, "Value").  A C++ `float` payload is carried as the
exact rational it denotes. -/
structure Value where
  type : ColType
  int_val : Int := 0
  float_val : ℚ := 0
  str_val : String := ""
  raw : List Nat := []
deriving DecidableEq, Repr

/-- Setter `Value::set_int`: stores an int and retags the value. -/
def Value.set_int (v : Value) (i : Int) : Value :=
  { v with type := ColType.TYPE_INT, int_val := i }

/-- Setter `Value::set_float`: stores a float and retags the value. -/
def Value.set_float (v : Value) (q : ℚ) : Value :=
  { v with type := ColType.TYPE_FLOAT, float_val := q }

/-- Column metadata, from `ColMeta` (table, name, type, byte length,
byte offset inside a row). -/
structure ColMeta where
  tab_name : String
  name : String
  type : ColType
  len : Nat
  offset : Nat
deriving DecidableEq, Repr

/-- Condition, from `Condition` in the common headers: left column,
operator, and either a literal (`is_rhs_val = true`, payload in `rhs_val`)
or a right column. -/
structure Condition where
  lhs_col : TabCol
  op : CompOp
  is_rhs_val : Bool
  rhs_col : TabCol := ⟨"", ""⟩
  rhs_val : Value := { type := ColType.TYPE_INT }
deriving DecidableEq, Repr

/-- Record identifier, from `Rid` (page number, slot number). -/
structure Rid where
  page_no : Int
  slot_no : Int
deriving DecidableEq, Repr

/-- Raw record bytes: the `data` buffer of an `RmRecord`. -/
abbrev Rec := List Nat

/-- Byte fetch: `bs[i]` with reads past the end of the modelled buffer
returning 0 (the theorems below never rely on out-of-buffer reads). -/
def byteAt (bs : List Nat) (i : Nat) : Nat := bs.getD i 0

/-- Little-endian unsigned decode of the first `n` bytes. -/
def decodeLE (bs : List Nat) : Nat → Nat
  | 0 => 0
  | n + 1 => byteAt bs 0 + 256 * decodeLE (bs.drop 1) n

/-- Two's-complement decode of a 32-bit little-endian `int`, as read by
`AbstractExecutor::get_value` for `TYPE_INT` cells. -/
def decodeInt32 (bs : List Nat) : Int :=
  let u : Nat := decodeLE bs 4
  if u < 2 ^ 31 then (u : Int) else (u : Int) - 2 ^ 32

/-- IEEE-754 value classes: finite values are carried exactly as
rationals; infinities and NaN are kept symbolic. -/
inductive FVal where
  | finite (q : ℚ)
  | posInf
  | negInf
  | nan
deriving DecidableEq, Repr

/-- Generic IEEE-754 binary decode with `eb` exponent bits and `fb`
fraction bits from an `(eb+fb+1)`-bit little-endian pattern. -/
def decodeIEEE (eb fb : Nat) (bs : List Nat) : FVal :=
  let u : Nat := decodeLE bs ((eb + fb + 1) / 8)
  let sign : Nat := u / 2 ^ (eb + fb)
  let expo : Nat := (u / 2 ^ fb) % 2 ^ eb
  let frac : Nat := u % 2 ^ fb
  if expo = 2 ^ eb - 1 then
    if frac = 0 then (if sign = 0 then FVal.posInf else FVal.negInf) else FVal.nan
  else
    let mag : ℚ :=
      if expo = 0 then (frac : ℚ) * (2 : ℚ) ^ (1 - (2 ^ (eb - 1) - 2 : Int) - fb)
      else ((2 ^ fb + frac : Nat) : ℚ) * (2 : ℚ) ^ ((expo : Int) - (2 ^ (eb - 1) - 1) - fb)
    FVal.finite (if sign = 0 then mag else -mag)

/-- Decode of a 4-byte C++ `float` cell. -/
def decodeF32 (bs : List Nat) : FVal := decodeIEEE 8 23 bs

/-- Decode of an 8-byte C++ `double` read (used by `SortExecutor`, which
reads `TYPE_FLOAT` sort keys through a `double*`). -/
def decodeF64 (bs : List Nat) : FVal := decodeIEEE 11 52 bs

/-- IEEE strict less-than: NaN is incomparable with everything. -/
def fLt : FVal → FVal → Bool
  | FVal.nan, _ => false
  | _, FVal.nan => false
  | FVal.negInf, FVal.negInf => false
  | FVal.negInf, _ => true
  | FVal.finite _, FVal.negInf => false
  | FVal.finite a, FVal.finite b => decide (a < b)
  | FVal.finite _, FVal.posInf => true
  | FVal.posInf, _ => false

/-- C-style three-way float comparison `(a<b) ? -1 : ((a>b) ? 1 : 0)`;
with a NaN operand every comparison is false, so the result is 0. -/
def fCmp (a b : FVal) : Int :=
  if fLt a b then -1 else if fLt b a then 1 else 0

/-- Three-way `Int` comparison `(a<b) ? -1 : ((a>b) ? 1 : 0)`. -/
def iCmp (a b : Int) : Int :=
  if a < b then -1 else if a > b then 1 else 0

/-- C `strncmp` over modelled byte buffers: compares at most `n` bytes as
unsigned chars, stopping early at a difference or at a NUL byte present in
both operands. -/
def strncmp (a b : List Nat) : Nat → Int
  | 0 => 0
  | n + 1 =>
    let x := byteAt a 0
    let y := byteAt b 0
    if x ≠ y then iCmp (x : Int) (y : Int)
    else if x = 0 then 0
    else strncmp (a.drop 1) (b.drop 1) n

/-- Lookup of a column by qualified name, from
`AbstractExecutor::get_col`; throws `ColumnNotFoundError` when absent. -/
def get_col (rec_cols : List ColMeta) (target : TabCol) : Except String ColMeta :=
  match rec_cols.find? (fun col =>
      col.tab_name == target.tab_name && col.name == target.col_name) with
  | some c => Except.ok c
  | none => Except.error ("ColumnNotFoundError: " ++ target.tab_name ++ "." ++ target.col_name)

/-- Numeric-type test, from `AbstractExecutor::is_numeric_type`. -/
def is_numeric_type (t : ColType) : Bool :=
  t == ColType.TYPE_INT || t == ColType.TYPE_FLOAT

/-- Numeric cell read promoted to float, covering
`AbstractExecutor::get_value` followed by `convert`: an `int` cell is
promoted exactly (the C++ `int → float` cast of a 32-bit value is modelled
as exact), a `float` cell is decoded from its 4 bytes. -/
def toFVal (t : ColType) (bs : List Nat) : FVal :=
  if t == ColType.TYPE_INT then FVal.finite ((decodeInt32 bs : Int) : ℚ) else decodeF32 bs

/-- Operator dispatch on a three-way comparison result, from the final
`switch (cond.op)` of `AbstractExecutor::eval_cond`. -/
def op_holds (op : CompOp) (cmp : Int) : Bool :=
  match op with
  | CompOp.OP_EQ => cmp == 0
  | CompOp.OP_NE => cmp != 0
  | CompOp.OP_LT => cmp < 0
  | CompOp.OP_GT => cmp > 0
  | CompOp.OP_LE => cmp ≤ 0
  | CompOp.OP_GE => cmp ≥ 0

/-- Single-condition evaluation, from `AbstractExecutor::eval_cond`
(`executor_abstract.h`, lines 115-187).  `lhs_data` / `rhs_data` are the
record-buffer suffixes starting at the column offsets, exactly like the
C++ `char*` pointers (so a string comparison may read past the column's
declared length into the following bytes of the record, as `strncmp` on
the raw pointer does). -/
def eval_cond (rec_cols : List ColMeta) (cond : Condition) (rec : Rec) :
    Except String Bool := do
  let lhs_col ← get_col rec_cols cond.lhs_col
  let lhs_data := rec.drop lhs_col.offset
  let rhs ← (if cond.is_rhs_val then
      Except.ok (cond.rhs_val.raw, cond.rhs_val.type, cond.rhs_val.raw.length)
    else do
      let rhs_col ← get_col rec_cols cond.rhs_col
      Except.ok (rec.drop rhs_col.offset, rhs_col.type, rhs_col.len))
  let rhs_data := rhs.1
  let rhs_type := rhs.2.1
  let rhs_len := rhs.2.2
  let is_numeric := is_numeric_type lhs_col.type && is_numeric_type rhs_type
  if lhs_col.type ≠ rhs_type ∧ ¬ is_numeric then
    Except.error "IncompatibleTypeError"
  else do
    let cmp : Int ←
      (if is_numeric then
        (if lhs_col.type == ColType.TYPE_INT && rhs_type == ColType.TYPE_INT then
          Except.ok (iCmp (decodeInt32 lhs_data) (decodeInt32 rhs_data))
        else
          Except.ok (fCmp (toFVal lhs_col.type lhs_data) (toFVal rhs_type rhs_data)))
      else if lhs_col.type == ColType.TYPE_STRING then
        Except.ok (strncmp lhs_data rhs_data (max lhs_col.len rhs_len))
      else
        Except.error "eval_cond: cmp not initialized")
    Except.ok (op_holds cond.op cmp)

/-- Conjunction over a condition list with short-circuit on the first
false, from `AbstractExecutor::eval_conds`. -/
def eval_conds (rec_cols : List ColMeta) (conds : List Condition) (rec : Rec) :
    Except String Bool :=
  match conds with
  | [] => Except.ok true
  | c :: rest => do
      let b ← eval_cond rec_cols c rec
      if b then eval_conds rec_cols rest rec else Except.ok false

/-- Composite row formed by `NestedLoopJoinExecutor::Next` /
`find_record`: `memcpy` of exactly `left->tupleLen()` bytes of the left
row followed by `right->tupleLen()` bytes of the right row. -/
def nlj_record (lenL lenR : Nat) (l r : Rec) : Rec :=
  l.take lenL ++ r.take lenR

/-- Match test of `NestedLoopJoinExecutor::find_record`:
`fed_conds_.empty() || eval_conds(cols_, fed_conds_, record)`. -/
def nlj_holds (cols : List ColMeta) (conds : List Condition) (lenL lenR : Nat)
    (l r : Rec) : Except String Bool :=
  if conds.isEmpty then Except.ok true
  else eval_conds cols conds (nlj_record lenL lenR l r)

/-- Iteration core of `NestedLoopJoinExecutor`: the cursor state is the
unconsumed suffix of the left child's rows (the left child restarts from
`Lfull` via `beginTuple` whenever it is exhausted) and the unconsumed
suffix of the right child's rows.  The returned list is the sequence of
composite rows delivered by driving the executor with the standard
`beginTuple / Next / nextTuple` loop; an evaluation error aborts, as the
C++ exception does. -/
def nlj_aux (cols : List ColMeta) (conds : List Condition) (lenL lenR : Nat)
    (Lfull : List Rec) : List Rec → List Rec → Except String (List Rec)
  | _, [] => Except.ok []
  | [], _ :: rs => nlj_aux cols conds lenL lenR Lfull Lfull rs
  | l :: ls, r :: rs => do
      let b ← nlj_holds cols conds lenL lenR l r
      let rest ← nlj_aux cols conds lenL lenR Lfull ls (r :: rs)
      if b then Except.ok (nlj_record lenL lenR l r :: rest) else Except.ok rest
termination_by lrem rrem => (rrem.length, lrem.length)

/-- Complete run of a NestedLoopJoin over materialized children:
`beginTuple` marks the executor at-end when either child is immediately
at-end, otherwise the `find_record` loop drives the iteration. -/
def nlj_run (cols : List ColMeta) (conds : List Condition) (lenL lenR : Nat)
    (L R : List Rec) : Except String (List Rec) :=
  if L.isEmpty || R.isEmpty then Except.ok []
  else nlj_aux cols conds lenL lenR L L R

/-- Flag `is_end_` right after `NestedLoopJoinExecutor::beginTuple` ran
its two child `beginTuple`s, before any row is sought. -/
def nlj_begin_immediately_at_end (L R : List Rec) : Bool :=
  L.isEmpty || R.isEmpty

/-- Boolean form of the match test (meaningful under error-freedom; an
evaluation error counts as a non-match). -/
def nlj_holdsB (cols : List ColMeta) (conds : List Condition) (lenL lenR : Nat)
    (l r : Rec) : Bool :=
  match nlj_holds cols conds lenL lenR l r with
  | Except.ok b => b
  | Except.error _ => false

/-- Claim-side specification for C4: the cross product of the two inputs
(left input outer, in the usual product order), filtered by the
conditions, each surviving pair assembled into a composite row. -/
def nlj_cross_filtered (cols : List ColMeta) (conds : List Condition)
    (lenL lenR : Nat) (L R : List Rec) : List Rec :=
  ((L.flatMap (fun l => R.map (fun r => (l, r)))).filter
      (fun p => nlj_holdsB cols conds lenL lenR p.1 p.2)).map
    (fun p => nlj_record lenL lenR p.1 p.2)

/-- Right-outer formulation of the join output: for each right row in
order, the matching left rows in order (this is the literal visit order of
the executor's driver loop). -/
def nlj_outer (cols : List ColMeta) (conds : List Condition) (lenL lenR : Nat)
    (L R : List Rec) : List Rec :=
  R.flatMap (fun r =>
    (L.filter (fun l => nlj_holdsB cols conds lenL lenR l r)).map
      (fun l => nlj_record lenL lenR l r))

theorem nlj_aux_nil (cols : List ColMeta) (conds : List Condition)
    (lenL lenR : Nat) (Lfull lrem : List Rec) :
    nlj_aux cols conds lenL lenR Lfull lrem [] = Except.ok [] := by
  cases lrem <;> simp [nlj_aux]

theorem nlj_aux_cons (cols : List ColMeta) (conds : List Condition)
    (lenL lenR : Nat) (Lfull : List Rec) (r : Rec) (rs : List Rec)
    (lrem : List Rec)
    (hok : ∀ l ∈ lrem, (nlj_holds cols conds lenL lenR l r).isOk)
    (out : List Rec)
    (hrest : nlj_aux cols conds lenL lenR Lfull Lfull rs = Except.ok out) :
    nlj_aux cols conds lenL lenR Lfull lrem (r :: rs) =
      Except.ok
        (((lrem.filter (fun l => nlj_holdsB cols conds lenL lenR l r)).map
            (fun l => nlj_record lenL lenR l r)) ++ out) := by
  induction lrem with
  | nil => simpa [nlj_aux] using hrest
  | cons l ls ih =>
      have hl : (nlj_holds cols conds lenL lenR l r).isOk :=
        hok l (List.mem_cons_self l ls)
      have ih' := ih (fun l' hl' => hok l' (List.mem_cons_of_mem _ hl'))
      match hres : nlj_holds cols conds lenL lenR l r with
      | Except.error e => simp [hres, Except.isOk, Except.toBool] at hl
      | Except.ok b =>
          cases b with
          | true => simp [nlj_aux, hres, ih', nlj_holdsB, Bind.bind, Except.bind]
          | false => simp [nlj_aux, hres, ih', nlj_holdsB, Bind.bind, Except.bind]

theorem nlj_aux_full (cols : List ColMeta) (conds : List Condition)
    (lenL lenR : Nat) (L : List Rec) (R : List Rec)
    (hok : ∀ l ∈ L, ∀ r ∈ R, (nlj_holds cols conds lenL lenR l r).isOk) :
    nlj_aux cols conds lenL lenR L L R =
      Except.ok (nlj_outer cols conds lenL lenR L R) := by
  induction R with
  | nil => simp [nlj_aux_nil, nlj_outer]
  | cons r rs ih =>
      have ih' := ih (fun l hl r' hr' => hok l hl r' (List.mem_cons_of_mem _ hr'))
      rw [nlj_aux_cons cols conds lenL lenR L r rs L
        (fun l hl => hok l hl r (List.mem_cons_self r rs)) _ ih']
      simp [nlj_outer]

theorem filter_map_eq_flatMap {α β : Type} (p : α → Bool) (g : α → β)
    (xs : List α) :
    (xs.filter p).map g = xs.flatMap (fun x => if p x then [g x] else []) := by
  induction xs with
  | nil => simp
  | cons x t ih => by_cases hx : p x = true <;> simp [hx, ih]

theorem nlj_outer_perm_cross (cols : List ColMeta) (conds : List Condition)
    (lenL lenR : Nat) (L R : List Rec) :
    (↑(nlj_outer cols conds lenL lenR L R) : Multiset Rec) =
      ↑(nlj_cross_filtered cols conds lenL lenR L R) := by
  have hcross : nlj_cross_filtered cols conds lenL lenR L R =
      L.flatMap (fun l => R.flatMap (fun r =>
        if nlj_holdsB cols conds lenL lenR l r then [nlj_record lenL lenR l r]
        else [])) := by
    unfold nlj_cross_filtered
    rw [List.filter_flatMap, List.map_flatMap]
    refine List.flatMap_congr ?_
    intro l _
    rw [List.filter_map, List.map_map]
    rw [filter_map_eq_flatMap]
    simp [Function.comp]
  have houter : nlj_outer cols conds lenL lenR L R =
      R.flatMap (fun r => L.flatMap (fun l =>
        if nlj_holdsB cols conds lenL lenR l r then [nlj_record lenL lenR l r]
        else [])) := by
    unfold nlj_outer
    exact List.flatMap_congr
      (fun r _ => filter_map_eq_flatMap
        (fun l => nlj_holdsB cols conds lenL lenR l r)
        (fun l => nlj_record lenL lenR l r) L)
  rw [houter, hcross]
  simp only [← Multiset.coe_bind]
  exact Multiset.bind_bind (↑R : Multiset Rec) (↑L : Multiset Rec)

theorem nlj_outer_nil_left (cols : List ColMeta) (conds : List Condition)
    (lenL lenR : Nat) (R : List Rec) :
    nlj_outer cols conds lenL lenR [] R = [] := by
  simp [nlj_outer]

/-- C4: for every pair of child executors (materialized here as the row
lists they yield) and every condition list, NestedLoopJoin produces
exactly the multiset cross-product of the left and right inputs filtered
by the conditions — the full Cartesian product when the condition list is
empty — and it is immediately at_end (producing nothing) when either
input yields no rows.  The hypothesis says condition evaluation raises no
exception on any composite row. -/
theorem C4_nlj_filtered_cross_product (cols : List ColMeta)
    (conds : List Condition) (lenL lenR : Nat) (L R : List Rec)
    (hok : ∀ l ∈ L, ∀ r ∈ R, (nlj_holds cols conds lenL lenR l r).isOk) :
    (∃ out, nlj_run cols conds lenL lenR L R = Except.ok out ∧
      (↑out : Multiset Rec) = ↑(nlj_cross_filtered cols conds lenL lenR L R)) ∧
    (L = [] ∨ R = [] → nlj_begin_immediately_at_end L R = true ∧
      nlj_run cols conds lenL lenR L R = Except.ok []) ∧
    (conds = [] → nlj_cross_filtered cols conds lenL lenR L R =
      L.flatMap (fun l => R.map (fun r => nlj_record lenL lenR l r))) := by
  refine ⟨⟨nlj_outer cols conds lenL lenR L R, ?_, nlj_outer_perm_cross _ _ _ _ _ _⟩, ?_, ?_⟩
  · cases L with
    | nil => simp [nlj_run, nlj_outer_nil_left]
    | cons l ls =>
        cases R with
        | nil => simp [nlj_run, nlj_outer]
        | cons r rs =>
            simpa [nlj_run] using nlj_aux_full cols conds lenL lenR (l :: ls) (r :: rs) hok
  · rintro (rfl | rfl) <;> simp [nlj_begin_immediately_at_end, nlj_run]
  · rintro rfl
    simp only [nlj_cross_filtered, nlj_holdsB, nlj_holds, List.isEmpty_nil,
      if_true, List.filter_true, List.map_flatMap, List.map_map]
    rfl

/-- Witness for C4 at a concrete join: schema t(a INT) ⋈ u(b INT) on
t.a = u.b with left rows {1, 2} and right rows {2, 3}. -/
theorem C4_nlj_filtered_cross_product_witness :
    (∃ out, nlj_run [⟨"t", "a", ColType.TYPE_INT, 4, 0⟩, ⟨"u", "b", ColType.TYPE_INT, 4, 4⟩]
        [⟨⟨"t", "a"⟩, CompOp.OP_EQ, false, ⟨"u", "b"⟩, { type := ColType.TYPE_INT }⟩]
        4 4 [[1, 0, 0, 0], [2, 0, 0, 0]] [[2, 0, 0, 0], [3, 0, 0, 0]] = Except.ok out ∧
      (↑out : Multiset Rec) =
        ↑(nlj_cross_filtered
            [⟨"t", "a", ColType.TYPE_INT, 4, 0⟩, ⟨"u", "b", ColType.TYPE_INT, 4, 4⟩]
            [⟨⟨"t", "a"⟩, CompOp.OP_EQ, false, ⟨"u", "b"⟩, { type := ColType.TYPE_INT }⟩]
            4 4 [[1, 0, 0, 0], [2, 0, 0, 0]] [[2, 0, 0, 0], [3, 0, 0, 0]])) :=
  (C4_nlj_filtered_cross_product
    [⟨"t", "a", ColType.TYPE_INT, 4, 0⟩, ⟨"u", "b", ColType.TYPE_INT, 4, 4⟩]
    [⟨⟨"t", "a"⟩, CompOp.OP_EQ, false, ⟨"u", "b"⟩, { type := ColType.TYPE_INT }⟩]
    4 4 [[1, 0, 0, 0], [2, 0, 0, 0]] [[2, 0, 0, 0], [3, 0, 0, 0]] (by decide)).1

/-- Claim-side string rule for C6, written from the spec's words: a
string-vs-string comparison is `strncmp` over the MINIMUM of the two
declared lengths. -/
def spec_string_cmp_min (lhs_data rhs_data : List Nat) (lhs_len rhs_len : Nat) : Int :=
  strncmp lhs_data rhs_data (min lhs_len rhs_len)

/-- Counterexample to C6: schema t(s1 CHAR(2), s2 CHAR(4)) with row bytes
"ab" ++ "abcd" and condition `t.s1 = t.s2`.  The spec's min-length rule
compares only 2 bytes ("ab" = "ab", equality holds), but `eval_cond`
compares `max(2,4) = 4` bytes and reads past the 2-byte column, so the
code answers false. -/
theorem C6_counterexample :
    eval_cond
        [⟨"t", "s1", ColType.TYPE_STRING, 2, 0⟩, ⟨"t", "s2", ColType.TYPE_STRING, 4, 2⟩]
        ⟨⟨"t", "s1"⟩, CompOp.OP_EQ, false, ⟨"t", "s2"⟩, { type := ColType.TYPE_INT }⟩
        [97, 98, 97, 98, 99, 100] = Except.ok false ∧
      op_holds CompOp.OP_EQ
        (spec_string_cmp_min [97, 98, 97, 98, 99, 100] [97, 98, 99, 100] 2 4) = true := by
  decide

/-- C6 (amended): every string-vs-string comparison performed by
`eval_cond` is a bytewise `strncmp` over the MAXIMUM of the lhs column's
declared length and the rhs length (the rhs column's declared length, or
the literal's raw size), stopping early at a NUL byte.  First conjunct:
column-vs-literal; second conjunct: column-vs-column. -/
theorem C6_string_cmp_uses_max :
    (∀ (rec_cols : List ColMeta) (cond : Condition) (rec : Rec) (lhs_col : ColMeta),
      get_col rec_cols cond.lhs_col = Except.ok lhs_col →
      lhs_col.type = ColType.TYPE_STRING →
      cond.is_rhs_val = true →
      cond.rhs_val.type = ColType.TYPE_STRING →
      eval_cond rec_cols cond rec =
        Except.ok (op_holds cond.op
          (strncmp (rec.drop lhs_col.offset) cond.rhs_val.raw
            (max lhs_col.len cond.rhs_val.raw.length)))) ∧
    (∀ (rec_cols : List ColMeta) (cond : Condition) (rec : Rec)
        (lhs_col rhs_col : ColMeta),
      get_col rec_cols cond.lhs_col = Except.ok lhs_col →
      lhs_col.type = ColType.TYPE_STRING →
      cond.is_rhs_val = false →
      get_col rec_cols cond.rhs_col = Except.ok rhs_col →
      rhs_col.type = ColType.TYPE_STRING →
      eval_cond rec_cols cond rec =
        Except.ok (op_holds cond.op
          (strncmp (rec.drop lhs_col.offset) (rec.drop rhs_col.offset)
            (max lhs_col.len rhs_col.len)))) := by
  constructor
  · intro rec_cols cond rec lhs_col hl hstr hv hrt
    simp [eval_cond, hl, hstr, hv, hrt, is_numeric_type, Bind.bind, Except.bind]
  · intro rec_cols cond rec lhs_col rhs_col hl hstr hv hr hrt
    simp [eval_cond, hl, hstr, hv, hr, hrt, is_numeric_type, Bind.bind, Except.bind]

/-- Witness for C6 (amended), column-vs-column branch at the concrete
schema of the counterexample. -/
theorem C6_string_cmp_uses_max_witness :
    eval_cond
        [⟨"t", "s1", ColType.TYPE_STRING, 2, 0⟩, ⟨"t", "s2", ColType.TYPE_STRING, 4, 2⟩]
        ⟨⟨"t", "s1"⟩, CompOp.OP_EQ, false, ⟨"t", "s2"⟩, { type := ColType.TYPE_INT }⟩
        [97, 98, 97, 98, 99, 100] =
      Except.ok (op_holds CompOp.OP_EQ
        (strncmp (([97, 98, 97, 98, 99, 100] : List Nat).drop 0)
          (([97, 98, 97, 98, 99, 100] : List Nat).drop 2) (max 2 4))) :=
  C6_string_cmp_uses_max.2
    [⟨"t", "s1", ColType.TYPE_STRING, 2, 0⟩, ⟨"t", "s2", ColType.TYPE_STRING, 4, 2⟩]
    ⟨⟨"t", "s1"⟩, CompOp.OP_EQ, false, ⟨"t", "s2"⟩, { type := ColType.TYPE_INT }⟩
    [97, 98, 97, 98, 99, 100]
    ⟨"t", "s1", ColType.TYPE_STRING, 2, 0⟩ ⟨"t", "s2", ColType.TYPE_STRING, 4, 2⟩
    (by decide) rfl rfl (by decide) rfl

/-- Cast admissibility, from `Analyze::can_cast_type`
(`analyze.cpp`, lines 462-472). -/
def can_cast_type (from_type to_type : ColType) : Bool :=
  if from_type == to_type then true
  else if from_type == ColType.TYPE_INT && to_type == ColType.TYPE_FLOAT then true
  else if from_type == ColType.TYPE_FLOAT && to_type == ColType.TYPE_INT then true
  else false

/-- Truncation toward zero, the behaviour of the C++
`static_cast<int>(float)` on in-range values. -/
def trunc_toward_zero (q : ℚ) : Int :=
  if 0 ≤ q then ⌊q⌋ else ⌈q⌉

/-- Analyzer-side cast, from `Analyze::cast_value` (`analyze.cpp`,
lines 474-491).  The `INT → FLOAT` branch retags and converts; the
`FLOAT → INT` branch is literally empty in the source (its body is the
comment `// do not things`), so the value is returned unchanged; any
other combination throws `IncompatibleTypeError`. -/
def cast_value (val : Value) (to_type : ColType) : Except String Value :=
  if val.type == ColType.TYPE_INT && to_type == ColType.TYPE_FLOAT then
    Except.ok { val with type := ColType.TYPE_FLOAT, float_val := (val.int_val : ℚ) }
  else if val.type == ColType.TYPE_FLOAT && to_type == ColType.TYPE_INT then
    Except.ok val
  else
    Except.error "IncompatibleTypeError"

/-- Per-column value coercion of `InsertExecutor::Next`
(`executor_insert.h`, lines 99-118): when column and value types differ,
FLOAT → INT truncates via `static_cast<int>` and INT → FLOAT widens;
anything else throws. -/
def insert_coerce (col_type : ColType) (val : Value) : Except String Value :=
  if col_type == val.type then Except.ok val
  else if col_type == ColType.TYPE_INT && val.type == ColType.TYPE_FLOAT then
    Except.ok (val.set_int (trunc_toward_zero val.float_val))
  else if col_type == ColType.TYPE_FLOAT && val.type == ColType.TYPE_INT then
    Except.ok (val.set_float (val.int_val : ℚ))
  else
    Except.error "IncompatibleTypeError"

/-- Per-SET-clause value coercion of `UpdateExecutor::Next`
(`executor_update.h`, lines 98-115), same casts as the insert path. -/
def update_coerce (col_type : ColType) (val : Value) : Except String Value :=
  if col_type == val.type then Except.ok val
  else if col_type == ColType.TYPE_INT && val.type == ColType.TYPE_FLOAT then
    Except.ok (val.set_int (trunc_toward_zero val.float_val))
  else if col_type == ColType.TYPE_FLOAT && val.type == ColType.TYPE_INT then
    Except.ok (val.set_float (val.int_val : ℚ))
  else
    Except.error "IncompatibleTypeError"

/-- Counterexample to C7: coercing the FLOAT literal 3.5 to an INT column
during semantic analysis (`Analyze::cast_value`) neither truncates nor
retags — the value comes back unchanged with type FLOAT, not as INT 3. -/
theorem C7_counterexample :
    cast_value { type := ColType.TYPE_FLOAT, float_val := (7 : ℚ) / 2 } ColType.TYPE_INT =
        Except.ok { type := ColType.TYPE_FLOAT, float_val := (7 : ℚ) / 2 } ∧
      ({ type := ColType.TYPE_FLOAT, float_val := (7 : ℚ) / 2 } : Value).type ≠
        ColType.TYPE_INT ∧
      trunc_toward_zero ((7 : ℚ) / 2) = 3 := by
  refine ⟨rfl, by decide, ?_⟩
  rw [trunc_toward_zero]
  norm_num

/-- C7 (amended): FLOAT-to-INT coercion truncates toward zero and retags
the value as INT in the executors (INSERT value coercion and the UPDATE
executor's SET application), while the semantic-analysis `cast_value`
leaves a FLOAT value unchanged (type stays FLOAT). -/
theorem C7_float_to_int_coercion_sites :
    (∀ v : Value, v.type = ColType.TYPE_FLOAT →
      insert_coerce ColType.TYPE_INT v =
          Except.ok (v.set_int (trunc_toward_zero v.float_val)) ∧
        (v.set_int (trunc_toward_zero v.float_val)).type = ColType.TYPE_INT) ∧
    (∀ v : Value, v.type = ColType.TYPE_FLOAT →
      update_coerce ColType.TYPE_INT v =
          Except.ok (v.set_int (trunc_toward_zero v.float_val)) ∧
        (v.set_int (trunc_toward_zero v.float_val)).type = ColType.TYPE_INT) ∧
    (∀ v : Value, v.type = ColType.TYPE_FLOAT →
      cast_value v ColType.TYPE_INT = Except.ok v) := by
  refine ⟨?_, ?_, ?_⟩ <;> intro v hv <;>
    simp [insert_coerce, update_coerce, cast_value, Value.set_int, hv]

/-- Witness for C7 (amended) at the FLOAT value 3.5. -/
theorem C7_float_to_int_coercion_sites_witness :
    (insert_coerce ColType.TYPE_INT { type := ColType.TYPE_FLOAT, float_val := (7 : ℚ) / 2 } =
        Except.ok (Value.set_int { type := ColType.TYPE_FLOAT, float_val := (7 : ℚ) / 2 }
          (trunc_toward_zero ((7 : ℚ) / 2))) ∧
      (Value.set_int { type := ColType.TYPE_FLOAT, float_val := (7 : ℚ) / 2 }
          (trunc_toward_zero ((7 : ℚ) / 2))).type = ColType.TYPE_INT) ∧
    cast_value { type := ColType.TYPE_FLOAT, float_val := (7 : ℚ) / 2 } ColType.TYPE_INT =
      Except.ok { type := ColType.TYPE_FLOAT, float_val := (7 : ℚ) / 2 } :=
  ⟨C7_float_to_int_coercion_sites.1
      { type := ColType.TYPE_FLOAT, float_val := (7 : ℚ) / 2 } rfl,
    C7_float_to_int_coercion_sites.2.2
      { type := ColType.TYPE_FLOAT, float_val := (7 : ℚ) / 2 } rfl⟩

/-- Index metadata, from `IndexMeta` (indexed columns with their row
offsets and lengths, total key length, column count). -/
structure IndexMetaM where
  cols : List ColMeta
  col_tot_len : Nat
  col_num : Nat
deriving DecidableEq, Repr

/-- Entry of a B+-tree index: (key bytes, record id).  The external index
manager is modelled by its entry content; record ids are abstracted to
the counter value handed out by the record manager. -/
abbrev IdxEntry := List Nat × Nat

/-- Key assembly of `InsertExecutor::insert_index` (and
`UpdateExecutor::update_indexes`): concatenation, over the first
`col_num` indexed columns in declared order, of each column's raw bytes
extracted from the row. -/
def build_key (index : IndexMetaM) (rec : Rec) : List Nat :=
  (index.cols.take index.col_num).flatMap (fun c => (rec.drop c.offset).take c.len)

/-- Successful `IxIndexHandle::insert_entry` (external, spec §6): the
index gains the entry. -/
def index_insert_entry (entries : List IdxEntry) (key : List Nat) (rid : Nat) :
    List IdxEntry :=
  entries ++ [(key, rid)]

/-- `IxIndexHandle::delete_entry` (external, spec §6): removes the entry
with the given key. -/
def index_delete_entry : List IdxEntry → List Nat → List IdxEntry
  | [], _ => []
  | e :: t, key => if e.1 = key then t else e :: index_delete_entry t key

/-- Observable events of one INSERT statement, used to state ordering
properties of the index maintenance. -/
inductive InsEv where
  | ins_ok (i : Nat)
  | ins_fail (i : Nat)
  | del (i : Nat)
  | heap_del
deriving DecidableEq, Repr

/-- Family of per-index entry lists (one per index of the table, by
declared index position). -/
abbrev IdxFam := Nat → List IdxEntry

/-- Pointwise update of one index's entries. -/
def idx_set (f : IdxFam) (p : Nat) (v : List IdxEntry) : IdxFam :=
  fun q => if q = p then v else f q

/-- One successful index insertion (position, key) applied to the family. -/
def ins_step (rid : Nat) (acc : IdxFam) (p : Nat × List Nat) : IdxFam :=
  idx_set acc p.1 (index_insert_entry (acc p.1) p.2 rid)

/-- One compensating deletion (position, key) applied to the family. -/
def rollback_step (acc : IdxFam) (p : Nat × List Nat) : IdxFam :=
  idx_set acc p.1 (index_delete_entry (acc p.1) p.2)

/-- Loop of `InsertExecutor::insert_index` (`executor_insert.h`, lines
155-203): walk the table's indexes in declared order starting at
position `i`, carrying the keys already inserted (`inserted`, in
insertion order, mirroring the C++ `inserted_keys` vector).  On a failed
`insert_entry` (the external outcome is `insert_ok`), roll back by
iterating the previously inserted indexes with `rollback_i` ascending
from 0 — i.e. FORWARD over `inserted` — deleting each key, and report
failure. -/
def insert_index_go (insert_ok : Nat → Bool) (rec : Rec) (rid : Nat) :
    List IndexMetaM → Nat → List (Nat × List Nat) → IdxFam → List InsEv →
      (Bool × IdxFam × List InsEv)
  | [], _, _, idxs, tr => (true, idxs, tr)
  | m :: rest, i, inserted, idxs, tr =>
      let key := build_key m rec
      if insert_ok i then
        insert_index_go insert_ok rec rid rest (i + 1) (inserted ++ [(i, key)])
          (ins_step rid idxs (i, key)) (tr ++ [InsEv.ins_ok i])
      else
        (false,
         inserted.foldl rollback_step idxs,
         tr ++ [InsEv.ins_fail i] ++ inserted.map (fun p => InsEv.del p.1))

/-- Heap-file state: record list plus the next record id the record
manager will hand out. -/
structure DbState where
  heap : List (Nat × Rec)
  next_rid : Nat
  indexes : IdxFam

/-- `RmFileHandle::delete_record` on the modelled heap: removes the
record with the given rid. -/
def heap_delete_record : List (Nat × Rec) → Nat → List (Nat × Rec)
  | [], _ => []
  | e :: t, rid => if e.1 = rid then t else e :: heap_delete_record t rid

/-- Storage effect of `InsertExecutor::Next` (`executor_insert.h`, lines
127-138) after the row bytes are assembled: insert the record into the
heap, maintain all indexes via `insert_index`, and on index failure
delete the freshly inserted heap record and raise `RMDBError`. -/
def insert_next (metas : List IndexMetaM) (insert_ok : Nat → Bool) (rec : Rec)
    (st : DbState) : Except String Unit × DbState × List InsEv :=
  let rid := st.next_rid
  let heap1 := st.heap ++ [(rid, rec)]
  let res := insert_index_go insert_ok rec rid metas 0 [] st.indexes []
  if res.1 then
    (Except.ok (), { heap := heap1, next_rid := rid + 1, indexes := res.2.1 }, res.2.2)
  else
    (Except.error "RMDBError: Failed to insert into index, rolled back record insertion",
     { heap := heap_delete_record heap1 rid, next_rid := rid + 1, indexes := res.2.1 },
     res.2.2 ++ [InsEv.heap_del])

/-- Insertions performed before the failure: positions `i, i+1, …,
i+j-1` with the keys built from the corresponding index metadata. -/
def new_ins (rec : Rec) (rest : List IndexMetaM) (i j : Nat) : List (Nat × List Nat) :=
  (List.range j).map (fun e => (i + e, build_key (rest.getD e ⟨[], 0, 0⟩) rec))

theorem new_ins_succ (rec : Rec) (m : IndexMetaM) (rest : List IndexMetaM)
    (i d : Nat) :
    new_ins rec (m :: rest) i (d + 1) =
      (i, build_key m rec) :: new_ins rec rest (i + 1) d := by
  unfold new_ins
  rw [List.range_succ_eq_map]
  simp only [List.map_cons, List.map_map, Nat.add_zero, List.getD_cons_zero]
  refine congrArg _ (List.map_congr_left ?_)
  intro e _
  simp only [Function.comp_apply, List.getD_cons_succ]
  congr 1
  omega

theorem insert_index_go_fail (insert_ok : Nat → Bool) (rec : Rec) (rid : Nat) :
    ∀ (j : Nat) (rest : List IndexMetaM) (i : Nat)
      (inserted : List (Nat × List Nat)) (idxs : IdxFam) (tr : List InsEv),
    j < rest.length → insert_ok (i + j) = false →
    (∀ e, e < j → insert_ok (i + e) = true) →
    insert_index_go insert_ok rec rid rest i inserted idxs tr =
      (false,
       (inserted ++ new_ins rec rest i j).foldl rollback_step
         ((new_ins rec rest i j).foldl (ins_step rid) idxs),
       tr ++ (List.range j).map (fun e => InsEv.ins_ok (i + e)) ++
         [InsEv.ins_fail (i + j)] ++
         (inserted ++ new_ins rec rest i j).map (fun p => InsEv.del p.1)) := by
  intro j
  induction j with
  | zero =>
      intro rest i inserted idxs tr hlen hfail _
      cases rest with
      | nil => simp at hlen
      | cons m rest =>
          simp only [Nat.add_zero] at hfail
          rw [insert_index_go]
          simp [hfail, new_ins, List.append_assoc]
  | succ d ih =>
      intro rest i inserted idxs tr hlen hfail hok
      cases rest with
      | nil => simp at hlen
      | cons m rest =>
          have h0 : insert_ok i = true := by
            have := hok 0 (Nat.succ_pos d)
            simpa using this
          have hrec := ih rest (i + 1) (inserted ++ [(i, build_key m rec)])
            (ins_step rid idxs (i, build_key m rec)) (tr ++ [InsEv.ins_ok i])
            (by simpa using Nat.lt_of_succ_lt_succ hlen)
            (by
              have harith : i + 1 + d = i + (d + 1) := by omega
              rw [harith]; exact hfail)
            (by
              intro e he
              have harith : i + 1 + e = i + (e + 1) := by omega
              rw [harith]; exact hok (e + 1) (Nat.succ_lt_succ he))
          have hmap : (List.range (d + 1)).map (fun e => InsEv.ins_ok (i + e)) =
              InsEv.ins_ok i :: (List.range d).map (fun e => InsEv.ins_ok (i + 1 + e)) := by
            rw [List.range_succ_eq_map, List.map_cons, List.map_map]
            simp only [Nat.add_zero]
            refine congrArg _ (List.map_congr_left ?_)
            intro e _
            simp only [Function.comp_apply]
            congr 1
            omega
          rw [insert_index_go]
          simp only [h0, if_true]
          rw [new_ins_succ, hmap, show i + (d + 1) = i + 1 + d from by omega]
          simpa [List.foldl_cons, List.append_assoc, List.singleton_append,
            List.cons_append] using hrec

theorem idx_set_apply_same (f : IdxFam) (p : Nat) (v : List IdxEntry) :
    idx_set f p v p = v := by
  simp [idx_set]

theorem idx_set_self (f : IdxFam) (p : Nat) : idx_set f p (f p) = f := by
  funext q
  by_cases h : q = p <;> simp [idx_set, h]

theorem idx_set_idx_set (f : IdxFam) (p : Nat) (a b : List IdxEntry) :
    idx_set (idx_set f p a) p b = idx_set f p b := by
  funext q
  by_cases h : q = p <;> simp [idx_set, h]

theorem foldl_ins_step_apply (rid : Nat) :
    ∀ (l : List (Nat × List Nat)) (idxs : IdxFam) (p : Nat),
    p ∉ l.map Prod.fst → (l.foldl (ins_step rid) idxs) p = idxs p := by
  intro l
  induction l with
  | nil => intro idxs p _; rfl
  | cons q t ih =>
      intro idxs p hp
      simp only [List.map_cons, List.mem_cons] at hp
      push_neg at hp
      rw [List.foldl_cons, ih _ p hp.2]
      simp [ins_step, idx_set, hp.1]

theorem foldl_ins_step_set_comm (rid : Nat) :
    ∀ (l : List (Nat × List Nat)) (idxs : IdxFam) (p : Nat) (v : List IdxEntry),
    p ∉ l.map Prod.fst →
    l.foldl (ins_step rid) (idx_set idxs p v) =
      idx_set (l.foldl (ins_step rid) idxs) p v := by
  intro l
  induction l with
  | nil => intro idxs p v _; rfl
  | cons q t ih =>
      intro idxs p v hp
      simp only [List.map_cons, List.mem_cons] at hp
      push_neg at hp
      have hstep : ins_step rid (idx_set idxs p v) q = idx_set (ins_step rid idxs q) p v := by
        funext x
        by_cases hx : x = q.1
        · subst hx
          simp [ins_step, idx_set, index_insert_entry, Ne.symm hp.1]
        · by_cases hx2 : x = p
          · subst hx2
            simp [ins_step, idx_set, hx]
          · simp [ins_step, idx_set, hx, hx2]
      rw [List.foldl_cons, hstep, ih _ _ _ hp.2, List.foldl_cons]

theorem index_delete_append (l : List IdxEntry) (k : List Nat) (rid : Nat)
    (h : ∀ e ∈ l, e.1 ≠ k) :
    index_delete_entry (l ++ [(k, rid)]) k = l := by
  induction l with
  | nil => simp [index_delete_entry]
  | cons e t ih =>
      have he : e.1 ≠ k := h e (List.mem_cons_self e t)
      simp only [List.cons_append, index_delete_entry, he, if_false, List.append_eq]
      rw [ih (fun x hx => h x (List.mem_cons_of_mem _ hx))]

theorem fold_rollback_insert (rid : Nat) :
    ∀ (l : List (Nat × List Nat)) (idxs : IdxFam),
    (l.map Prod.fst).Nodup →
    (∀ p ∈ l, ∀ e ∈ idxs p.1, e.1 ≠ p.2) →
    l.foldl rollback_step (l.foldl (ins_step rid) idxs) = idxs := by
  intro l
  induction l with
  | nil => intro idxs _ _; rfl
  | cons p t ih =>
      intro idxs hnodup hfresh
      have hp : p.1 ∉ t.map Prod.fst := by
        simp only [List.map_cons, List.nodup_cons] at hnodup
        exact hnodup.1
      rw [List.foldl_cons, List.foldl_cons]
      have hins : ins_step rid idxs p = idx_set idxs p.1 (idxs p.1 ++ [(p.2, rid)]) := rfl
      rw [hins, foldl_ins_step_set_comm rid t idxs p.1 _ hp]
      have hdel : rollback_step
          (idx_set (t.foldl (ins_step rid) idxs) p.1 (idxs p.1 ++ [(p.2, rid)])) p =
          t.foldl (ins_step rid) idxs := by
        unfold rollback_step
        rw [idx_set_apply_same, idx_set_idx_set,
          index_delete_append _ _ _ (hfresh p (List.mem_cons_self p t)),
          ← foldl_ins_step_apply rid t idxs p.1 hp, idx_set_self]
      rw [hdel]
      exact ih idxs
        (by simp only [List.map_cons, List.nodup_cons] at hnodup; exact hnodup.2)
        (fun q hq => hfresh q (List.mem_cons_of_mem _ hq))

theorem heap_delete_append (h : List (Nat × Rec)) (rid : Nat) (rec : Rec)
    (hf : ∀ e ∈ h, e.1 ≠ rid) :
    heap_delete_record (h ++ [(rid, rec)]) rid = h := by
  induction h with
  | nil => simp [heap_delete_record]
  | cons e t ih =>
      have he : e.1 ≠ rid := hf e (List.mem_cons_self e t)
      simp only [List.cons_append, heap_delete_record, he, if_false, List.append_eq]
      rw [ih (fun x hx => hf x (List.mem_cons_of_mem _ hx))]

theorem new_ins_fst (rec : Rec) (metas : List IndexMetaM) (j : Nat) :
    (new_ins rec metas 0 j).map Prod.fst = List.range j := by
  unfold new_ins
  rw [List.map_map]
  refine (List.map_congr_left ?_).trans (List.map_id _)
  intro e _
  simp

/-- C3: for every INSERT into a table with k indexes, if `insert_entry`
fails (returns the INVALID sentinel) on the k-th index (position `j`,
the earlier ones having succeeded), then after the statement the heap
contains no new record and no index of the table contains a new entry for
this row: the compensating deletes and the heap-record deletion restore
heap and all index contents exactly, and `RMDBError` is raised.  The
freshness hypotheses say the new row's keys were not already present in
the touched indexes and the fresh rid not already in the heap (guaranteed
by the record manager and the uniqueness of index keys). -/
theorem C3_insert_atomicity (metas : List IndexMetaM) (insert_ok : Nat → Bool)
    (rec : Rec) (st : DbState) (j : Nat)
    (hj : j < metas.length) (hfail : insert_ok j = false)
    (hok : ∀ e, e < j → insert_ok e = true)
    (hfresh : ∀ e, e < j → ∀ en ∈ st.indexes e,
      en.1 ≠ build_key (metas.getD e ⟨[], 0, 0⟩) rec)
    (hheap : ∀ en ∈ st.heap, en.1 ≠ st.next_rid) :
    (insert_next metas insert_ok rec st).1 =
        Except.error "RMDBError: Failed to insert into index, rolled back record insertion" ∧
      (insert_next metas insert_ok rec st).2.1.heap = st.heap ∧
      (insert_next metas insert_ok rec st).2.1.indexes = st.indexes := by
  have hgo := insert_index_go_fail insert_ok rec st.next_rid j metas 0 [] st.indexes []
    hj (by simpa using hfail) (by intro e he; simpa using hok e he)
  have hnodup : ((new_ins rec metas 0 j).map Prod.fst).Nodup := by
    rw [new_ins_fst]; exact List.nodup_range j
  have hfresh2 : ∀ p ∈ new_ins rec metas 0 j, ∀ e ∈ st.indexes p.1, e.1 ≠ p.2 := by
    intro p hp e he
    rcases List.mem_map.mp hp with ⟨a, ha, rfl⟩
    have ha' : a < j := List.mem_range.mp ha
    simpa using hfresh a ha' e (by simpa using he)
  have hround := fold_rollback_insert st.next_rid (new_ins rec metas 0 j)
    st.indexes hnodup hfresh2
  refine ⟨?_, ?_, ?_⟩
  · simp only [insert_next, hgo, Bool.false_eq_true, if_false]
  · simp only [insert_next, hgo, Bool.false_eq_true, if_false]
    exact heap_delete_append st.heap st.next_rid rec hheap
  · simp only [insert_next, hgo, List.nil_append, Bool.false_eq_true, if_false]
    exact hround

/-- Witness for C3: table with two single-column INT indexes, the second
index insertion failing; the initial heap holds one unrelated record and
each index one unrelated entry. -/
theorem C3_insert_atomicity_witness :
    (insert_next
          [⟨[⟨"t", "a", ColType.TYPE_INT, 4, 0⟩], 4, 1⟩,
           ⟨[⟨"t", "b", ColType.TYPE_INT, 4, 4⟩], 4, 1⟩]
          (fun i => decide (i = 0)) [1, 0, 0, 0, 2, 0, 0, 0]
          ⟨[(0, [9, 9, 9, 9, 9, 9, 9, 9])], 1, fun _ => [([9, 9, 9, 9], 0)]⟩).1 =
        Except.error "RMDBError: Failed to insert into index, rolled back record insertion" ∧
      (insert_next
          [⟨[⟨"t", "a", ColType.TYPE_INT, 4, 0⟩], 4, 1⟩,
           ⟨[⟨"t", "b", ColType.TYPE_INT, 4, 4⟩], 4, 1⟩]
          (fun i => decide (i = 0)) [1, 0, 0, 0, 2, 0, 0, 0]
          ⟨[(0, [9, 9, 9, 9, 9, 9, 9, 9])], 1, fun _ => [([9, 9, 9, 9], 0)]⟩).2.1.heap =
        [(0, [9, 9, 9, 9, 9, 9, 9, 9])] ∧
      (insert_next
          [⟨[⟨"t", "a", ColType.TYPE_INT, 4, 0⟩], 4, 1⟩,
           ⟨[⟨"t", "b", ColType.TYPE_INT, 4, 4⟩], 4, 1⟩]
          (fun i => decide (i = 0)) [1, 0, 0, 0, 2, 0, 0, 0]
          ⟨[(0, [9, 9, 9, 9, 9, 9, 9, 9])], 1, fun _ => [([9, 9, 9, 9], 0)]⟩).2.1.indexes =
        (fun _ => [([9, 9, 9, 9], 0)]) :=
  C3_insert_atomicity
    [⟨[⟨"t", "a", ColType.TYPE_INT, 4, 0⟩], 4, 1⟩,
     ⟨[⟨"t", "b", ColType.TYPE_INT, 4, 4⟩], 4, 1⟩]
    (fun i => decide (i = 0)) [1, 0, 0, 0, 2, 0, 0, 0]
    ⟨[(0, [9, 9, 9, 9, 9, 9, 9, 9])], 1, fun _ => [([9, 9, 9, 9], 0)]⟩ 1
    (by decide) (by decide) (by decide) (by decide) (by decide)

/-- Counterexample to C9: with three indexes and a failure on the third,
the compensating deletes run in FORWARD insertion order (index 0, then
index 1), not in reverse as the claim states. -/
theorem C9_counterexample :
    (insert_next [⟨[], 0, 0⟩, ⟨[], 0, 0⟩, ⟨[], 0, 0⟩] (fun i => decide (i < 2))
          [] ⟨[], 0, fun _ => []⟩).2.2 =
        [InsEv.ins_ok 0, InsEv.ins_ok 1, InsEv.ins_fail 2,
         InsEv.del 0, InsEv.del 1, InsEv.heap_del] ∧
      ([InsEv.ins_ok 0, InsEv.ins_ok 1, InsEv.ins_fail 2,
        InsEv.del 0, InsEv.del 1, InsEv.heap_del] : List InsEv) ≠
        [InsEv.ins_ok 0, InsEv.ins_ok 1, InsEv.ins_fail 2,
         InsEv.del 1, InsEv.del 0, InsEv.heap_del] := by
  constructor
  · rfl
  · decide

/-- C9 (amended): when the k-th index insertion fails during an INSERT,
the compensating cleanup deletes the previously inserted index entries by
iterating those indexes in FORWARD insertion order (ascending index
position), and only then deletes the heap record and raises RMDBError. -/
theorem C9_rollback_forward_order (metas : List IndexMetaM)
    (insert_ok : Nat → Bool) (rec : Rec) (st : DbState) (j : Nat)
    (hj : j < metas.length) (hfail : insert_ok j = false)
    (hok : ∀ e, e < j → insert_ok e = true) :
    (insert_next metas insert_ok rec st).2.2 =
        (List.range j).map InsEv.ins_ok ++ [InsEv.ins_fail j] ++
          (List.range j).map InsEv.del ++ [InsEv.heap_del] ∧
      (insert_next metas insert_ok rec st).1 =
        Except.error "RMDBError: Failed to insert into index, rolled back record insertion" := by
  have hgo := insert_index_go_fail insert_ok rec st.next_rid j metas 0 [] st.indexes []
    hj (by simpa using hfail) (by intro e he; simpa using hok e he)
  have hdels : (new_ins rec metas 0 j).map (fun p => InsEv.del p.1) =
      (List.range j).map InsEv.del := by
    have : (new_ins rec metas 0 j).map (fun p => InsEv.del p.1) =
        ((new_ins rec metas 0 j).map Prod.fst).map InsEv.del := by
      rw [List.map_map]; rfl
    rw [this, new_ins_fst]
  constructor
  · simp only [insert_next, hgo, List.nil_append, Bool.false_eq_true, if_false,
      Nat.zero_add, hdels, List.append_assoc]
  · simp only [insert_next, hgo, Bool.false_eq_true, if_false]

/-- Witness for C9 (amended) at three indexes with the third failing. -/
theorem C9_rollback_forward_order_witness :
    (insert_next [⟨[], 0, 0⟩, ⟨[], 0, 0⟩, ⟨[], 0, 0⟩] (fun i => decide (i < 2))
          [] ⟨[], 0, fun _ => []⟩).2.2 =
        (List.range 2).map InsEv.ins_ok ++ [InsEv.ins_fail 2] ++
          (List.range 2).map InsEv.del ++ [InsEv.heap_del] ∧
      (insert_next [⟨[], 0, 0⟩, ⟨[], 0, 0⟩, ⟨[], 0, 0⟩] (fun i => decide (i < 2))
          [] ⟨[], 0, fun _ => []⟩).1 =
        Except.error "RMDBError: Failed to insert into index, rolled back record insertion" :=
  C9_rollback_forward_order [⟨[], 0, 0⟩, ⟨[], 0, 0⟩, ⟨[], 0, 0⟩]
    (fun i => decide (i < 2)) [] ⟨[], 0, fun _ => []⟩ 2
    (by decide) (by decide) (by decide)

/-- Iterator state of `IndexScanExecutor` after the cursor is created:
the rids the `IxScan` cursor has not yet passed (head = cursor position;
the B+-tree cursor itself is external, spec §6) and the member `rid_`. -/
structure IxState where
  scan : List Nat
  rid : Nat
deriving DecidableEq, Repr

/-- Skip loop shared by `IndexScanExecutor::beginTuple` and
`::nextTuple`: `while (!scan_->is_end()) { rid_ = scan_->rid(); rec =
get_record(rid_); if (eval_conds(...)) return; scan_->next(); }`.  The
heap is the external record file, read by rid. -/
def ix_skip (cols : List ColMeta) (fed_conds : List Condition) (heap : Nat → Rec) :
    List Nat → Nat → Except String IxState
  | [], rid => Except.ok ⟨[], rid⟩
  | r :: rest, _ => do
      let b ← eval_conds cols fed_conds (heap r)
      if b then Except.ok ⟨r :: rest, r⟩ else ix_skip cols fed_conds heap rest r

/-- Positioning part of `IndexScanExecutor::beginTuple` once the range
`[lower, upper)` has been materialized into the cursor's rid list. -/
def ix_begin (cols : List ColMeta) (fed_conds : List Condition) (heap : Nat → Rec)
    (entries : List Nat) (rid0 : Nat) : Except String IxState :=
  ix_skip cols fed_conds heap entries rid0

/-- Flag `IndexScanExecutor::is_end` (cursor exhausted). -/
def ix_is_end (s : IxState) : Bool := s.scan.isEmpty

/-- `IndexScanExecutor::nextTuple`: advance the cursor once (when not at
end), then run the skip loop. -/
def ix_nextTuple (cols : List ColMeta) (fed_conds : List Condition)
    (heap : Nat → Rec) (s : IxState) : Except String IxState :=
  match s.scan with
  | [] => Except.ok s
  | _ :: rest => ix_skip cols fed_conds heap rest s.rid

/-- `IndexScanExecutor::Next` (`executor_index_scan.h`, lines 324-342):
return nullptr at end; otherwise fetch the current record by `rid_`,
then — still inside `Next` — call `nextTuple()`, and return the record. -/
def ix_Next (cols : List ColMeta) (fed_conds : List Condition) (heap : Nat → Rec)
    (s : IxState) : Except String (Option Rec × IxState) :=
  if ix_is_end s then Except.ok (none, s)
  else do
    let record := heap s.rid
    let s2 ← ix_nextTuple cols fed_conds heap s
    Except.ok (some record, s2)

/-- C2 refutation: over an index scan of table t(a INT) with rows 1 and 2
and no conditions, two consecutive `Next()` calls with no intervening
`nextTuple()` return DIFFERENT rows and advance the iteration —
`IndexScanExecutor::Next` calls `nextTuple()` internally, so the
current-row accessor is not idempotent. -/
theorem C2_indexscan_next_not_idempotent :
    ix_begin [⟨"t", "a", ColType.TYPE_INT, 4, 0⟩] []
        (fun r => if r = 0 then [1, 0, 0, 0] else [2, 0, 0, 0]) [0, 1] 0 =
      Except.ok ⟨[0, 1], 0⟩ ∧
    ix_Next [⟨"t", "a", ColType.TYPE_INT, 4, 0⟩] []
        (fun r => if r = 0 then [1, 0, 0, 0] else [2, 0, 0, 0]) ⟨[0, 1], 0⟩ =
      Except.ok (some [1, 0, 0, 0], ⟨[1], 1⟩) ∧
    ix_Next [⟨"t", "a", ColType.TYPE_INT, 4, 0⟩] []
        (fun r => if r = 0 then [1, 0, 0, 0] else [2, 0, 0, 0]) ⟨[1], 1⟩ =
      Except.ok (some [2, 0, 0, 0], ⟨[], 1⟩) ∧
    ([1, 0, 0, 0] : Rec) ≠ [2, 0, 0, 0] := by
  refine ⟨rfl, rfl, rfl, by decide⟩

/-- Plan tags, from `PlanTag` in `optimizer/plan.h` (restricted to the
operator tags the embedded planner functions produce; `T_Filter` is used
by `Planner::push_filters_down` and defined with `FilterPlan` in a common
header outside `src/`). -/
inductive PlanTag where
  | T_SeqScan
  | T_IndexScan
  | T_NestLoop
  | T_SortMerge
  | T_Sort
  | T_Projection
  | T_Filter
deriving DecidableEq, Repr

/-- Plan tree, from the class hierarchy of `optimizer/plan.h`
(`ScanPlan`, `JoinPlan`, `ProjectionPlan`, `SortPlan`) plus `FilterPlan`
(constructed by `Planner::push_filters_down` and consumed by
`ExplainExecutor`; its definition is outside `src/`, the fields
`subplan_` / `conds_` are those its callers use).  `nullPlan` models a
null `shared_ptr<Plan>`, which the C++ freely passes around. -/
inductive Plan where
  | nullPlan
  | scanPlan (tag : PlanTag) (tab_name : String) (cols : List ColMeta)
      (conds : List Condition) (len : Nat) (fed_conds : List Condition)
      (index_col_names : List String)
  | joinPlan (tag : PlanTag) (left right : Plan) (conds : List Condition)
  | projectionPlan (subplan : Plan) (sel_cols : List TabCol)
  | sortPlan (subplan : Plan) (sel_col : TabCol) (is_desc : Bool)
  | filterPlan (subplan : Plan) (conds : List Condition)
deriving DecidableEq, Repr

/-- Table metadata as the planner sees it: name, ordered columns, and the
ordered column-name signature of each index. -/
structure TabMetaM where
  name : String
  cols : List ColMeta
  indexes : List (List String)
deriving DecidableEq, Repr

/-- Modelled from the spec (§6, `TableMeta.is_index(col_names) → bool`,
with §3's "at most one index per distinct ordered column-list
signature"): membership of the ordered signature among the table's
indexes.  `TabMeta::is_index` itself lives in a system header outside
`src/`. -/
def TabMetaM.is_index (t : TabMetaM) (names : List String) : Bool :=
  t.indexes.any (fun ix => ix == names)

/-- Catalog: list of tables; `SmManager::db_.get_table` by name (the
planner only calls it for existing tables). -/
def get_table (db : List TabMetaM) (name : String) : TabMetaM :=
  (db.find? (fun t => t.name == name)).getD ⟨name, [], []⟩

/-- Record length computed by the `ScanPlan` constructor:
`cols_.back().offset + cols_.back().len`. -/
def last_col_len (cols : List ColMeta) : Nat :=
  match cols.getLast? with
  | some c => c.offset + c.len
  | none => 0

/-- Constructor `ScanPlan::ScanPlan` (`plan.h`, lines 112-123): fetches
the table's columns from the catalog, computes the row length, and copies
`conds` into `fed_conds_`. -/
def mkScanPlan (db : List TabMetaM) (tag : PlanTag) (tab_name : String)
    (conds : List Condition) (index_col_names : List String) : Plan :=
  let cols := (get_table db tab_name).cols
  Plan.scanPlan tag tab_name cols conds (last_col_len cols) conds index_col_names

/-- Single-table predicate extraction `pop_conds` (`planner.cpp`, lines
77-92): a condition is taken iff its lhs table is the given table and the
rhs is a literal, or lhs and rhs reference the same table; taken
conditions are removed from the pool.  Returns (taken, remaining). -/
def pop_conds : List Condition → String → List Condition × List Condition
  | [], _ => ([], [])
  | c :: rest, tab =>
      let (s, r) := pop_conds rest tab
      if (tab == c.lhs_col.tab_name && c.is_rhs_val) ||
          (c.lhs_col.tab_name == c.rhs_col.tab_name) then
        (c :: s, r)
      else
        (s, c :: r)

/-- Lexicographic strict order on character lists (by code point),
the order of `std::string::operator<`. -/
def char_list_lt : List Char → List Char → Bool
  | [], [] => false
  | [], _ :: _ => true
  | _ :: _, [] => false
  | c :: cs, d :: ds =>
      if c.toNat < d.toNat then true
      else if d.toNat < c.toNat then false
      else char_list_lt cs ds

/-- String order used by `std::map` / `std::set` keys. -/
def str_lt (a b : String) : Bool := char_list_lt a.toList b.toList

/-- Ordered-set insertion for `std::set<std::string>` (lexicographic,
duplicates ignored), used by `get_index_cols`. -/
def sorted_insert : List String → String → List String
  | [], x => [x]
  | y :: t, x =>
      if x = y then y :: t
      else if str_lt x y then x :: y :: t
      else y :: sorted_insert t x

/-- Index matching `Planner::get_index_cols` (`planner.cpp`, lines
28-68): collect (into a sorted set) the columns of this table compared
against a literal with one of the six operators; prefer the first
single-column index over those columns in sorted order, else try the
whole collected signature as a composite index. -/
def get_index_cols (db : List TabMetaM) (tab_name : String)
    (curr_conds : List Condition) : Bool × List String :=
  let indexed_columns := curr_conds.foldl
    (fun acc cond =>
      if cond.is_rhs_val && cond.lhs_col.tab_name == tab_name &&
          (cond.op == CompOp.OP_EQ || cond.op == CompOp.OP_LT ||
           cond.op == CompOp.OP_GT || cond.op == CompOp.OP_LE ||
           cond.op == CompOp.OP_GE || cond.op == CompOp.OP_NE) then
        sorted_insert acc cond.lhs_col.col_name
      else acc) []
  let tab := get_table db tab_name
  if indexed_columns.isEmpty then (false, indexed_columns)
  else
    match indexed_columns.find? (fun col => tab.is_index [col]) with
    | some col => (true, [col])
    | none =>
        if tab.is_index indexed_columns then (true, indexed_columns)
        else (false, indexed_columns)

/-- Symmetric-operator table used when swapping a condition's sides
(`swap_op` maps in `planner.cpp` and `executor_index_scan.h`). -/
def swap_op_fn : CompOp → CompOp
  | CompOp.OP_EQ => CompOp.OP_EQ
  | CompOp.OP_NE => CompOp.OP_NE
  | CompOp.OP_LT => CompOp.OP_GT
  | CompOp.OP_GT => CompOp.OP_LT
  | CompOp.OP_LE => CompOp.OP_GE
  | CompOp.OP_GE => CompOp.OP_LE

/-- Side swap of a condition (`std::swap(lhs_col, rhs_col)` plus the
symmetric operator). -/
def swap_cond (c : Condition) : Condition :=
  { c with lhs_col := c.rhs_col, rhs_col := c.lhs_col, op := swap_op_fn c.op }

/-- Condition push into an existing join tree, `push_conds`
(`planner.cpp`, lines 94-136).  Returns the ternary code (1 = lhs on the
left, 2 = lhs on the right, 0 = not found, 3 = absorbed), the possibly
side-swapped condition, and the updated plan. -/
def push_conds (cond : Condition) : Plan → Int × Condition × Plan
  | Plan.scanPlan tag tab cols conds len fed icols =>
      if tab == cond.lhs_col.tab_name then
        (1, cond, Plan.scanPlan tag tab cols conds len fed icols)
      else if tab == cond.rhs_col.tab_name then
        (2, cond, Plan.scanPlan tag tab cols conds len fed icols)
      else
        (0, cond, Plan.scanPlan tag tab cols conds len fed icols)
  | Plan.joinPlan tag l r conds =>
      let lres := push_conds cond l
      if lres.1 == 3 then (3, lres.2.1, Plan.joinPlan tag lres.2.2 r conds)
      else
        let rres := push_conds cond r
        if rres.1 == 3 then (3, rres.2.1, Plan.joinPlan tag l rres.2.2 conds)
        else if lres.1 == 0 || rres.1 == 0 then
          (lres.1 + rres.1, cond, Plan.joinPlan tag l r conds)
        else
          let condF := if lres.1 == 2 then swap_cond cond else cond
          (3, condF, Plan.joinPlan tag l r (conds ++ [condF]))
  | p => (0, cond, p)

/-- Resolved query as consumed by the planner's physical phase: the
analyzer output plus the fields of the parse tree that
`physical_optimization` and `generate_sort_plan` read (`has_sort`, the
single ORDER BY column and its direction; `is_select_stmt` models
whether `dynamic_pointer_cast<ast::SelectStmt>(query->parse)` succeeds —
it does for SELECT, and for EXPLAIN, whose `ast::ExplainStmt` is defined
outside `src/` and is dispatched before `SelectStmt` in
`Planner::do_planner`, i.e. as its subclass). -/
structure QueryM where
  tables : List String
  cols : List TabCol
  conds : List Condition
  is_select_stmt : Bool
  is_select_star : Bool
  has_sort : Bool
  order_col : String
  order_desc : Bool
deriving Repr

/-- Scan-plan generation of `make_one_rel`'s first phase (`planner.cpp`,
lines 205-226): per table, pop its single-table predicates, choose
IndexScan when `get_index_cols` matches, else SeqScan; the condition pool
is threaded through (`pop_conds` removes what it takes). -/
def build_scans (db : List TabMetaM) : List String → List Condition →
    List Plan × List Condition
  | [], conds => ([], conds)
  | t :: ts, conds =>
      let pc := pop_conds conds t
      let gic := get_index_cols db t pc.1
      let scan :=
        if gic.1 then mkScanPlan db PlanTag.T_IndexScan t pc.1 gic.2
        else mkScanPlan db PlanTag.T_SeqScan t pc.1 []
      let rest := build_scans db ts pc.2
      (scan :: rest.1, rest.2)

/-- Test used by `pop_scan` when casting each plan to `ScanPlan` and
comparing its table name. -/
def plan_is_scan_of (table : String) : Plan → Bool
  | Plan.scanPlan _ t _ _ _ _ _ => t == table
  | _ => false

/-- `pop_scan` (`planner.cpp`, lines 138-149): find the first scan of the
table, mark it used (`scantbl[i] = 1`), append the table to
`joined_tables`, return it; `none` models the C++ nullptr when no scan
matches. -/
def pop_scan_state (plans : List Plan) (used : List Bool) (joined : List String)
    (table : String) : Option Plan × List Bool × List String :=
  match plans.findIdx? (plan_is_scan_of table) with
  | some i => (some (plans.getD i Plan.nullPlan), used.set i true, joined ++ [table])
  | none => (none, used, joined)

/-- Null `shared_ptr<Plan>` materialization. -/
def opt_plan : Option Plan → Plan
  | some p => p
  | none => Plan.nullPlan

/-- Join-algorithm selection for the first join (`planner.cpp`, lines
281-296): NestLoop preferred, SortMerge when it alone is enabled,
otherwise `RMDBError("No join executor selected!")`. -/
def first_join_algo (enable_nl enable_sm : Bool) (l r : Plan)
    (conds : List Condition) : Except String Plan :=
  if enable_nl && enable_sm then Except.ok (Plan.joinPlan PlanTag.T_NestLoop l r conds)
  else if enable_nl then Except.ok (Plan.joinPlan PlanTag.T_NestLoop l r conds)
  else if enable_sm then Except.ok (Plan.joinPlan PlanTag.T_SortMerge l r conds)
  else Except.error "No join executor selected!"

/-- Second join-building loop of `make_one_rel` (`planner.cpp`, lines
308-384): for each remaining condition, bring in the operand scans that
are not yet joined (checking `joined_tables` sequentially, so the rhs
check sees the lhs pop's effect), then (1) two new scans: join them and
cross-join with the tree, (2) one new scan: swap the condition when the
new scan came from the rhs and join it on the left of the tree, (3) no
new scan: push the condition down into the tree via `push_conds`. -/
def join_rest (plans : List Plan) : List Condition → List Bool → List String →
    Plan → List Bool × List String × Plan
  | [], used, joined, tree => (used, joined, tree)
  | c :: rest, used, joined, tree =>
      let lNew := !(joined.contains c.lhs_col.tab_name)
      let lstep := if lNew then pop_scan_state plans used joined c.lhs_col.tab_name
                   else (none, used, joined)
      let rNew := !(lstep.2.2.contains c.rhs_col.tab_name)
      let rstep := if rNew then pop_scan_state plans lstep.2.1 lstep.2.2 c.rhs_col.tab_name
                   else (none, lstep.2.1, lstep.2.2)
      match lstep.1, rstep.1 with
      | some lp, some rp =>
          join_rest plans rest rstep.2.1 rstep.2.2
            (Plan.joinPlan PlanTag.T_NestLoop
              (Plan.joinPlan PlanTag.T_NestLoop lp rp [c]) tree [])
      | none, none =>
          let pc := push_conds c tree
          join_rest plans rest rstep.2.1 rstep.2.2 pc.2.2
      | some lp, none =>
          let c2 := if rNew then swap_cond c else c
          let child := if rNew then Plan.nullPlan else lp
          join_rest plans rest rstep.2.1 rstep.2.2
            (Plan.joinPlan PlanTag.T_NestLoop child tree [c2])
      | none, some rp =>
          join_rest plans rest rstep.2.1 rstep.2.2
            (Plan.joinPlan PlanTag.T_NestLoop rp tree [swap_cond c])

/-- Third phase of `make_one_rel` (`planner.cpp`, lines 405-413): scans
never incorporated are cross-joined (empty condition list) onto the tree
in table order. -/
def cross_leftover : List (Plan × Bool) → Plan → Plan
  | [], tree => tree
  | pu :: rest, tree =>
      cross_leftover rest
        (if pu.2 then tree else Plan.joinPlan PlanTag.T_NestLoop pu.1 tree [])

/-- `Planner::make_one_rel` (`planner.cpp`, lines 192-418). -/
def make_one_rel (db : List TabMetaM) (enable_nl enable_sm : Bool)
    (q : QueryM) : Except String Plan :=
  let bs := build_scans db q.tables q.conds
  let scans := bs.1
  if q.tables.length == 1 then Except.ok (scans.getD 0 Plan.nullPlan)
  else
    match bs.2 with
    | [] =>
        let tree := scans.getD 0 Plan.nullPlan
        let used := (List.replicate q.tables.length false).set 0 true
        Except.ok (cross_leftover (scans.zip used) tree)
    | c :: rest => do
        let used0 := List.replicate q.tables.length false
        let lstep := pop_scan_state scans used0 [] c.lhs_col.tab_name
        let rstep := pop_scan_state scans lstep.2.1 lstep.2.2 c.rhs_col.tab_name
        let tree0 ← first_join_algo enable_nl enable_sm (opt_plan lstep.1)
          (opt_plan rstep.1) [c]
        let fin := join_rest scans rest rstep.2.1 rstep.2.2 tree0
        Except.ok (cross_leftover (scans.zip fin.1) fin.2.2)

/-- `Planner::extract_conditions_from_plan` (`planner.cpp`, lines
1134-1148): conditions of the scans reachable through join nodes only. -/
def extract_conditions_from_plan : Plan → List Condition
  | Plan.scanPlan _ _ _ conds _ _ _ => conds
  | Plan.joinPlan _ l r _ =>
      extract_conditions_from_plan l ++ extract_conditions_from_plan r
  | _ => []

/-- `Planner::collect_table_names_from_plan` (`planner.cpp`, lines
1171-1185): table names of the scans under scan/join/filter/projection
nodes. -/
def collect_table_names_from_plan : Plan → List String
  | Plan.scanPlan _ t _ _ _ _ _ => [t]
  | Plan.joinPlan _ l r _ =>
      collect_table_names_from_plan l ++ collect_table_names_from_plan r
  | Plan.filterPlan sub _ => collect_table_names_from_plan sub
  | Plan.projectionPlan sub _ => collect_table_names_from_plan sub
  | _ => []

/-- `Planner::clear_conditions_from_plan` (`planner.cpp`, lines
1154-1166): clears `conds_` of scans reachable through join nodes. -/
def clear_conditions_from_plan : Plan → Plan
  | Plan.scanPlan tag t cols _ len fed icols =>
      Plan.scanPlan tag t cols [] len fed icols
  | Plan.joinPlan tag l r conds =>
      Plan.joinPlan tag (clear_conditions_from_plan l)
        (clear_conditions_from_plan r) conds
  | p => p

/-- `Planner::push_filters_down` (`planner.cpp`, lines 883-951): on a
join, recurse into both children, gather the conditions still sitting on
reachable scans, split the literal-rhs ones by the child subtree owning
their lhs table (left first, else right), wrap the children in Filter
nodes, and clear the gathered scan conditions; on a scan, wrap it in a
Filter holding its literal-rhs own-table conditions and clear both
`conds_` and `fed_conds_`; all other nodes pass through. -/
def push_filters_down : Plan → Plan
  | Plan.joinPlan tag l r conds =>
      let l1 := push_filters_down l
      let r1 := push_filters_down r
      let all_conditions := extract_conditions_from_plan (Plan.joinPlan tag l1 r1 conds)
      let lT := collect_table_names_from_plan l1
      let rT := collect_table_names_from_plan r1
      let left_conditions := all_conditions.filter
        (fun c => c.is_rhs_val && lT.contains c.lhs_col.tab_name)
      let right_conditions := all_conditions.filter
        (fun c => c.is_rhs_val && !(lT.contains c.lhs_col.tab_name) &&
          rT.contains c.lhs_col.tab_name)
      let l2 := if !left_conditions.isEmpty then Plan.filterPlan l1 left_conditions else l1
      let r2 := if !right_conditions.isEmpty then Plan.filterPlan r1 right_conditions else r1
      clear_conditions_from_plan (Plan.joinPlan tag l2 r2 conds)
  | Plan.scanPlan tag t cols conds len fed icols =>
      let table_conditions := conds.filter
        (fun c => c.is_rhs_val && c.lhs_col.tab_name == t)
      if !table_conditions.isEmpty then
        Plan.filterPlan (Plan.scanPlan tag t cols [] len [] icols) table_conditions
      else Plan.scanPlan tag t cols conds len fed icols
  | p => p

/-- `Planner::apply_predicate_pushdown` (`planner.cpp`, lines 872-878). -/
def apply_predicate_pushdown (plan : Plan) (_q : QueryM) : Plan :=
  push_filters_down plan

/-- `Planner::insert_project_nodes` (`planner.cpp`, lines 1025-1050):
recurses through join/filter nodes and returns every other node
unchanged — the tree shape is not altered (scans are left bare). -/
def insert_project_nodes (needed : List String) (sel : List TabCol) :
    Plan → Plan
  | Plan.joinPlan tag l r conds =>
      Plan.joinPlan tag (insert_project_nodes needed sel l)
        (insert_project_nodes needed sel r) conds
  | Plan.filterPlan sub conds =>
      Plan.filterPlan (insert_project_nodes needed sel sub) conds
  | p => p

/-- `Planner::apply_projection_pushdown` (`planner.cpp`, lines 959-993):
collect the needed columns (projection plus condition columns, a sorted
string set), run `insert_project_nodes` for multi-table non-star
queries, and ALWAYS wrap the root in a Project node carrying the query's
projection list. -/
def apply_projection_pushdown (plan : Plan) (q : QueryM) : Plan :=
  match plan with
  | Plan.nullPlan => Plan.nullPlan
  | plan =>
    if !q.is_select_stmt then plan
    else
      let needed0 := q.cols.foldl
        (fun acc c => sorted_insert acc (c.tab_name ++ "." ++ c.col_name)) []
      let needed := q.conds.foldl
        (fun acc c =>
          let acc1 := sorted_insert acc (c.lhs_col.tab_name ++ "." ++ c.lhs_col.col_name)
          if !c.is_rhs_val then
            sorted_insert acc1 (c.rhs_col.tab_name ++ "." ++ c.rhs_col.col_name)
          else acc1) needed0
      let plan1 :=
        if q.tables.length > 1 && !q.is_select_star && q.cols.length > 0 then
          insert_project_nodes needed q.cols plan
        else plan
      Plan.projectionPlan plan1 q.cols

/-- `Planner::generate_sort_plan` (`planner.cpp`, lines 437-506): without
ORDER BY return the plan; otherwise resolve the sort column by name over
all visible columns (first match wins, default-constructed `TabCol` when
none matches) and wrap the plan in a Sort node. -/
def generate_sort_plan (db : List TabMetaM) (q : QueryM) (plan : Plan) : Plan :=
  if !q.has_sort then plan
  else
    let all_cols := q.tables.flatMap (fun t => (get_table db t).cols)
    let sel_col : TabCol :=
      match all_cols.find? (fun col => col.name == q.order_col) with
      | some col => ⟨col.tab_name, col.name⟩
      | none => ⟨"", ""⟩
    Plan.sortPlan plan sel_col q.order_desc

/-- `Planner::physical_optimization` (`planner.cpp`, lines 168-181):
scan/join construction, then predicate pushdown (inserting Filter
nodes), then projection pushdown (wrapping the root in Project), then —
LAST — the ORDER BY handling, which wraps the whole plan in Sort. -/
def physical_optimization (db : List TabMetaM) (enable_nl enable_sm : Bool)
    (q : QueryM) : Except String Plan := do
  let plan ← make_one_rel db enable_nl enable_sm q
  let plan1 := apply_predicate_pushdown plan q
  let plan2 := apply_projection_pushdown plan1 q
  Except.ok (generate_sort_plan db q plan2)

/-- Executor-tree shape produced by the portal; children are `Option`
because the C++ constructors receive possibly-null `unique_ptr`s. -/
inductive Exec where
  | seqScanE (tab : String) (conds : List Condition)
  | indexScanE (tab : String) (conds : List Condition) (index_cols : List String)
  | projectionE (child : Option Exec) (sel_cols : List TabCol)
  | nestedLoopJoinE (left right : Option Exec) (conds : List Condition)
  | sortE (child : Option Exec) (col : TabCol) (desc : Bool)
deriving Repr

/-- `Portal::convert_plan_executor` (`portal.h`, lines 355-411): the
dynamic-cast cascade handles ProjectionPlan, ScanPlan (Seq/Index),
JoinPlan and SortPlan; every other plan node — in particular a
`FilterPlan` — falls through to the final `return nullptr`. -/
def convert_plan_executor : Plan → Option Exec
  | Plan.projectionPlan sub cols =>
      some (Exec.projectionE (convert_plan_executor sub) cols)
  | Plan.scanPlan tag tab _ conds _ _ icols =>
      if tag == PlanTag.T_SeqScan then some (Exec.seqScanE tab conds)
      else some (Exec.indexScanE tab conds icols)
  | Plan.joinPlan _ l r conds =>
      some (Exec.nestedLoopJoinE (convert_plan_executor l)
        (convert_plan_executor r) conds)
  | Plan.sortPlan sub col desc =>
      some (Exec.sortE (convert_plan_executor sub) col desc)
  | Plan.filterPlan _ _ => none
  | Plan.nullPlan => none

/-- C1 refutation: `convert_plan_executor` converts NO FilterPlan to an
executor — it returns null for every Filter node — while the planner does
emit Filter nodes: for `SELECT a,b FROM t WHERE a >= 2` (spec scenario 1)
the physical plan is Project(Filter(Scan t)), and the portal converts it
to a Projection executor with a NULL child. -/
theorem C1_filter_plan_not_converted :
    (∀ (sub : Plan) (conds : List Condition),
      convert_plan_executor (Plan.filterPlan sub conds) = none) ∧
    physical_optimization [⟨"t", [⟨"t", "a", ColType.TYPE_INT, 4, 0⟩,
          ⟨"t", "b", ColType.TYPE_INT, 4, 4⟩], []⟩] true true
        ⟨["t"], [⟨"t", "a"⟩, ⟨"t", "b"⟩],
          [⟨⟨"t", "a"⟩, CompOp.OP_GE, true, ⟨"", ""⟩,
            { type := ColType.TYPE_INT, int_val := 2, raw := [2, 0, 0, 0] }⟩],
          true, false, false, "", false⟩ =
      Except.ok (Plan.projectionPlan
        (Plan.filterPlan
          (Plan.scanPlan PlanTag.T_SeqScan "t"
            [⟨"t", "a", ColType.TYPE_INT, 4, 0⟩, ⟨"t", "b", ColType.TYPE_INT, 4, 4⟩]
            [] 8 [] [])
          [⟨⟨"t", "a"⟩, CompOp.OP_GE, true, ⟨"", ""⟩,
            { type := ColType.TYPE_INT, int_val := 2, raw := [2, 0, 0, 0] }⟩])
        [⟨"t", "a"⟩, ⟨"t", "b"⟩]) ∧
    convert_plan_executor (Plan.projectionPlan
        (Plan.filterPlan
          (Plan.scanPlan PlanTag.T_SeqScan "t"
            [⟨"t", "a", ColType.TYPE_INT, 4, 0⟩, ⟨"t", "b", ColType.TYPE_INT, 4, 4⟩]
            [] 8 [] [])
          [⟨⟨"t", "a"⟩, CompOp.OP_GE, true, ⟨"", ""⟩,
            { type := ColType.TYPE_INT, int_val := 2, raw := [2, 0, 0, 0] }⟩])
        [⟨"t", "a"⟩, ⟨"t", "b"⟩]) =
      some (Exec.projectionE none [⟨"t", "a"⟩, ⟨"t", "b"⟩]) := by
  refine ⟨?_, by decide, rfl⟩
  intro sub conds
  rfl

/-- C5 refutation: for a SELECT with ORDER BY, the plan returned by the
planner has a SORT node at its root wrapping the Project node
(`generate_sort_plan` runs after `apply_projection_pushdown` in
`physical_optimization`), so the root is not a Project node. -/
theorem C5_order_by_root_is_sort :
    physical_optimization [⟨"t", [⟨"t", "a", ColType.TYPE_INT, 4, 0⟩], []⟩] true true
        ⟨["t"], [⟨"t", "a"⟩], [], true, false, true, "a", true⟩ =
      Except.ok (Plan.sortPlan
        (Plan.projectionPlan
          (Plan.scanPlan PlanTag.T_SeqScan "t"
            [⟨"t", "a", ColType.TYPE_INT, 4, 0⟩] [] 4 [] [])
          [⟨"t", "a"⟩])
        ⟨"t", "a"⟩ true) ∧
    (∀ (sub : Plan) (scols : List TabCol),
      Plan.sortPlan
        (Plan.projectionPlan
          (Plan.scanPlan PlanTag.T_SeqScan "t"
            [⟨"t", "a", ColType.TYPE_INT, 4, 0⟩] [] 4 [] [])
          [⟨"t", "a"⟩])
        ⟨"t", "a"⟩ true ≠ Plan.projectionPlan sub scols) := by
  refine ⟨by decide, ?_⟩
  intro sub scols h
  exact Plan.noConfusion h

/-- NUL-trimming of a string cell (`std::string` built over `col.len`
bytes then resized to `strlen`): the prefix before the first NUL byte. -/
def string_trim (bs : List Nat) : List Nat := bs.takeWhile (fun b => b ≠ 0)

/-- Three-way result of `std::string::compare`: lexicographic bytewise
comparison with length as tiebreaker. -/
def list_lex_cmp : List Nat → List Nat → Int
  | [], [] => 0
  | [], _ :: _ => -1
  | _ :: _, [] => 1
  | a :: as, b :: bs =>
      if a < b then -1 else if a > b then 1 else list_lex_cmp as bs

/-- IEEE equality used by the C++ `a_val == b_val` on doubles. -/
def fEq : FVal → FVal → Bool
  | FVal.finite a, FVal.finite b => a == b
  | FVal.posInf, FVal.posInf => true
  | FVal.negInf, FVal.negInf => true
  | _, _ => false

/-- Float branch of `SortExecutor::compare_tuples`:
`(a==b) ? 0 : ((a<b) ? -1 : 1)` — note a NaN operand yields 1. -/
def sort_fcmp (x y : FVal) : Int :=
  if fEq x y then 0 else if fLt x y then -1 else 1

/-- `SortExecutor::compare_tuples` (`execution_sort.h`, lines 121-163):
multi-key strict-less comparator; INT keys as 32-bit ints, FLOAT keys
read through a `double*` (8 bytes, although the column stores 4 —
modelled as the 8-byte IEEE read the code performs), STRING keys
NUL-trimmed and compared as `std::string`; a non-zero comparison is
direction-adjusted by the key's desc flag, zero falls through to the
next key, and all-equal yields false. -/
def compare_tuples : List ColMeta → List Bool → Rec → Rec → Bool
  | [], _, _, _ => false
  | col :: cs, ds, a, b =>
      let cr : Int :=
        if col.type = ColType.TYPE_INT then
          iCmp (decodeInt32 (a.drop col.offset)) (decodeInt32 (b.drop col.offset))
        else if col.type = ColType.TYPE_FLOAT then
          sort_fcmp (decodeF64 (a.drop col.offset)) (decodeF64 (b.drop col.offset))
        else
          list_lex_cmp (string_trim ((a.drop col.offset).take col.len))
            (string_trim ((b.drop col.offset).take col.len))
      if cr ≠ 0 then (if ds.headD false then decide (cr > 0) else decide (cr < 0))
      else compare_tuples cs (ds.drop 1) a b

/-- Contract of `std::sort` as used by `SortExecutor::beginTuple`
(`execution_sort.h`, line 81): the output is SOME permutation of the
input in which no later element compares strictly less than an earlier
adjacent one; unlike `std::stable_sort`, nothing constrains the relative
order of equivalent elements. -/
def sort_contract (cols : List ColMeta) (is_desc : List Bool)
    (input out : List Rec) : Prop :=
  input.Perm out ∧ out.Chain' (fun x y => compare_tuples cols is_desc y x = false)

/-- C8 refutation: sorting on t(a INT, tag) with two rows of equal key
a = 5, the comparator declares them equivalent in both directions, and
the SWAPPED output satisfies everything `std::sort` (the function the
code calls, line 81 of `execution_sort.h`) guarantees — so the code's
sorting contract does not entail the claimed stability, which would force
the input order to be kept. -/
theorem C8_std_sort_contract_admits_unstable :
    compare_tuples [⟨"t", "a", ColType.TYPE_INT, 4, 0⟩] [false]
        [5, 0, 0, 0, 1] [5, 0, 0, 0, 2] = false ∧
      compare_tuples [⟨"t", "a", ColType.TYPE_INT, 4, 0⟩] [false]
        [5, 0, 0, 0, 2] [5, 0, 0, 0, 1] = false ∧
      sort_contract [⟨"t", "a", ColType.TYPE_INT, 4, 0⟩] [false]
        [[5, 0, 0, 0, 1], [5, 0, 0, 0, 2]] [[5, 0, 0, 0, 2], [5, 0, 0, 0, 1]] ∧
      ([[5, 0, 0, 0, 2], [5, 0, 0, 0, 1]] : List Rec) ≠
        [[5, 0, 0, 0, 1], [5, 0, 0, 0, 2]] := by
  refine ⟨rfl, rfl, ⟨?_, ?_⟩, by decide⟩
  · exact List.Perm.swap _ _ _
  · simp only [List.chain'_cons, List.chain'_singleton, and_true]
    rfl

/-- `std::map<std::string, std::string>` insert-or-assign `m[k] = v`,
modelled on a list kept in ascending key order (the map's iteration
order). -/
def alias_map_insert : List (String × String) → String → String →
    List (String × String)
  | [], k, v => [(k, v)]
  | (k2, v2) :: t, k, v =>
      if k = k2 then (k, v) :: t
      else if str_lt k k2 then (k, v) :: (k2, v2) :: t
      else (k2, v2) :: alias_map_insert t k v

/-- Lookup `alias_map.find(k)`. -/
def alias_map_find (m : List (String × String)) (k : String) : Option String :=
  (m.find? (fun p => p.1 == k)).map (fun p => p.2)

/-- Alias-map construction of `Analyze::do_analyze` (`analyze.cpp`,
lines 39-96; the jointree loop repeats the same logic for each JOIN's
right reference, so all references are fed as one list): per table
reference (real name, alias — empty when none): verify the table exists,
map a non-empty alias to the real name rejecting duplicates, and always
map the real name to itself, rejecting a clash with an existing distinct
mapping. -/
def build_alias_map (is_table : String → Bool) :
    List (String × String) → List (String × String) →
      Except String (List (String × String))
  | m, [] => Except.ok m
  | m, (tab, al) :: rest =>
      if !(is_table tab) then Except.error ("TableNotFoundError: " ++ tab)
      else
        let step1 : Except String (List (String × String)) :=
          if al ≠ "" then
            if (alias_map_find m al).isSome then
              Except.error ("DuplicateAliasError: " ++ al)
            else Except.ok (alias_map_insert m al tab)
          else Except.ok m
        match step1 with
        | Except.error e => Except.error e
        | Except.ok m1 =>
            match alias_map_find m1 tab with
            | some v =>
                if v ≠ tab then Except.error ("DuplicateAliasError: " ++ tab)
                else build_alias_map is_table (alias_map_insert m1 tab tab) rest
            | none => build_alias_map is_table (alias_map_insert m1 tab tab) rest

/-- `ExplainExecutor::get_display_table_name`
(`executor_explain.cpp`, lines 460-480): walk the alias map in its
iteration (ascending key) order and return the FIRST key whose value is
the real table name; fall back to the real name. -/
def get_display_table_name (m : List (String × String)) (table_name : String) :
    String :=
  match m.find? (fun p => p.2 == table_name) with
  | some p => p.1
  | none => table_name

/-- Counterexample to C10: `FROM t AS x` builds the alias map
{t ↦ t, x ↦ t}; although the alias `x` is defined for `t`,
`get_display_table_name` walks the map in key order, meets the identity
entry `(t, t)` first, and renders the REAL name `t`. -/
theorem C10_counterexample :
    build_alias_map (fun t => t == "t") [] [("t", "x")] =
        Except.ok [("t", "t"), ("x", "t")] ∧
      ("x", "t") ∈ [("t", "t"), ("x", "t")] ∧
      get_display_table_name [("t", "t"), ("x", "t")] "t" = "t" ∧
      ("t" : String) ≠ "x" := by
  refine ⟨by decide, by decide, rfl, by decide⟩

theorem find_first_key_min (pr : String × String → Bool) :
    ∀ (m : List (String × String)),
    m.Pairwise (fun p q => str_lt p.1 q.1 = true) →
    ∀ p, m.find? pr = some p → ∀ q ∈ m, pr q = true →
      p.1 = q.1 ∨ str_lt p.1 q.1 = true := by
  intro m
  induction m with
  | nil => intro _ p hp; simp at hp
  | cons x rest ih =>
      intro hpw p hp q hq hprq
      have hx := (List.pairwise_cons.mp hpw).1
      have hrest := (List.pairwise_cons.mp hpw).2
      cases hprx : pr x with
      | true =>
          rw [List.find?_cons_of_pos _ hprx] at hp
          cases hp
          rcases List.mem_cons.mp hq with rfl | hq2
          · exact Or.inl rfl
          · exact Or.inr (hx q hq2)
      | false =>
          rw [List.find?_cons_of_neg _ (by simp [hprx])] at hp
          rcases List.mem_cons.mp hq with rfl | hq2
          · rw [hprx] at hprq; cases hprq
          · exact ih hrest p hp q hq2 hprq

/-- C10 (amended): in EXPLAIN output a table-name occurrence is rendered
as the lexicographically SMALLEST key of the alias map that maps to the
real table name.  Since the map always contains the identity entry
`(real, real)`, an alias is displayed only when it sorts before the real
name; otherwise the real name is displayed even though an alias is
defined. -/
theorem C10_display_least_key (m : List (String × String)) (t : String)
    (hs : m.Pairwise (fun p q => str_lt p.1 q.1 = true))
    (hid : (t, t) ∈ m) :
    ∃ p : String × String,
      m.find? (fun p => p.2 == t) = some p ∧
        get_display_table_name m t = p.1 ∧ p ∈ m ∧ p.2 = t ∧
        ∀ q ∈ m, q.2 = t → p.1 = q.1 ∨ str_lt p.1 q.1 = true := by
  have hsome : (m.find? (fun p => p.2 == t)).isSome := by
    rw [List.find?_isSome]
    exact ⟨(t, t), hid, by simp⟩
  rcases Option.isSome_iff_exists.mp hsome with ⟨p, hp⟩
  refine ⟨p, hp, ?_, ?_, ?_, ?_⟩
  · simp [get_display_table_name, hp]
  · exact List.mem_of_find?_eq_some hp
  · have := List.find?_some hp
    simpa using this
  · intro q hq hqt
    exact find_first_key_min _ m hs p hp q hq (by simp [hqt])

/-- Witness for C10 (amended) at the map {t ↦ t, x ↦ t}. -/
theorem C10_display_least_key_witness :
    ∃ p : String × String,
      ([("t", "t"), ("x", "t")].find? (fun p => p.2 == "t")) = some p ∧
        get_display_table_name [("t", "t"), ("x", "t")] "t" = p.1 ∧
        p ∈ [("t", "t"), ("x", "t")] ∧ p.2 = "t" ∧
        ∀ q ∈ [("t", "t"), ("x", "t")], q.2 = "t" →
          p.1 = q.1 ∨ str_lt p.1 q.1 = true :=
  C10_display_least_key [("t", "t"), ("x", "t")] "t"
    (by decide) (by decide)

end GssDB
